import Mathlib

/-
Verification of the kgtkr-icon avatar builder (three.js / VRM exporter).
The source file embedded here is the main module (the one that builds the
skeleton, assigns skin weights, segments the head mesh into face regions,
and post-processes the glTF export with the VRMC_vrm extension).

Numeric code is modelled over the rationals.  Where the JavaScript
semantics of IEEE special values matters (division by zero in smoothstep),
an explicit JSNum type models finite values exactly as rationals plus
positive infinity, negative infinity and NaN, with Math.min / Math.max /
arithmetic following the ECMAScript rules (NaN propagates through min and
max; a nonzero finite value divided by zero gives a signed infinity; zero
divided by zero gives NaN).  The rational zero behaves as JavaScript +0,
which is the only zero the embedded code paths can produce.
-/

namespace KgtkrIcon

/-! ### JavaScript number model -/

inductive JSNum where
  | fin : ℚ → JSNum
  | posInf : JSNum
  | negInf : JSNum
  | nan : JSNum
deriving DecidableEq, Repr

namespace JSNum

def sub : JSNum → JSNum → JSNum
  | nan, _ => nan
  | _, nan => nan
  | fin a, fin b => fin (a - b)
  | posInf, posInf => nan
  | posInf, _ => posInf
  | negInf, negInf => nan
  | negInf, _ => negInf
  | fin _, posInf => negInf
  | fin _, negInf => posInf

def mul : JSNum → JSNum → JSNum
  | nan, _ => nan
  | _, nan => nan
  | fin a, fin b => fin (a * b)
  | posInf, posInf => posInf
  | posInf, negInf => negInf
  | negInf, posInf => negInf
  | negInf, negInf => posInf
  | posInf, fin b => if 0 < b then posInf else if b < 0 then negInf else nan
  | negInf, fin b => if 0 < b then negInf else if b < 0 then posInf else nan
  | fin a, posInf => if 0 < a then posInf else if a < 0 then negInf else nan
  | fin a, negInf => if 0 < a then negInf else if a < 0 then posInf else nan

def div : JSNum → JSNum → JSNum
  | nan, _ => nan
  | _, nan => nan
  | fin a, fin b =>
      if b = 0 then (if 0 < a then posInf else if a < 0 then negInf else nan)
      else fin (a / b)
  | fin _, posInf => fin 0
  | fin _, negInf => fin 0
  | posInf, fin b => if 0 ≤ b then posInf else negInf
  | negInf, fin b => if 0 ≤ b then negInf else posInf
  | posInf, _ => nan
  | negInf, _ => nan

/-- Model of JavaScript Math.min: NaN propagates, otherwise the smaller value. -/
def fmin : JSNum → JSNum → JSNum
  | nan, _ => nan
  | _, nan => nan
  | fin a, fin b => fin (min a b)
  | negInf, _ => negInf
  | _, negInf => negInf
  | posInf, y => y
  | x, posInf => x

/-- Model of JavaScript Math.max: NaN propagates, otherwise the larger value. -/
def fmax : JSNum → JSNum → JSNum
  | nan, _ => nan
  | _, nan => nan
  | fin a, fin b => fin (max a b)
  | posInf, _ => posInf
  | _, posInf => posInf
  | negInf, y => y
  | x, negInf => x

end JSNum

/-! ### Skin weight assigner (function smoothstep, src/unnamed/part_001 lines 160-164)

The source is
  const t = Math.max(0, Math.min(1, (x - edge0) / (edge1 - edge0)));
  const r = t * t * (3 - 2 * t);
  return Math.max(0, Math.min(1, r));
-/

/-- Faithful embedding of the source smoothstep over the JSNum model,
including the IEEE behaviour of the unguarded division when
edge1 - edge0 = 0. -/
def smoothstepJS (edge0 edge1 x : ℚ) : JSNum :=
  let t := JSNum.fmax (.fin 0) (JSNum.fmin (.fin 1)
    (JSNum.div (JSNum.sub (.fin x) (.fin edge0)) (JSNum.sub (.fin edge1) (.fin edge0))))
  let r := JSNum.mul (JSNum.mul t t) (JSNum.sub (.fin 3) (JSNum.mul (.fin 2) t))
  JSNum.fmax (.fin 0) (JSNum.fmin (.fin 1) r)

/-- Rational specialisation of smoothstep; it agrees with smoothstepJS
whenever edge0 and edge1 differ (see smoothstepJS_eq_fin). -/
def smoothstep (edge0 edge1 x : ℚ) : ℚ :=
  let t := max 0 (min 1 ((x - edge0) / (edge1 - edge0)))
  let r := t * t * (3 - 2 * t)
  max 0 (min 1 r)

/-- Per-vertex 4-slot skin weight record pushed by createArm / createBody:
skinWeights.push(1 - weight, weight, 0, 0). -/
def skinWeightQuad (edge0 edge1 v : ℚ) : ℚ × ℚ × ℚ × ℚ :=
  let weight := smoothstep edge0 edge1 v
  (1 - weight, weight, 0, 0)

/-- The active weight pair over the JSNum model (slots 3 and 4 are the
constant 0 and are omitted). -/
def skinWeightPairJS (edge0 edge1 x : ℚ) : JSNum × JSNum :=
  let weight := smoothstepJS edge0 edge1 x
  (JSNum.sub (.fin 1) weight, weight)

theorem smoothstepJS_eq_fin (edge0 edge1 x : ℚ) (h : edge1 ≠ edge0) :
    smoothstepJS edge0 edge1 x = .fin (smoothstep edge0 edge1 x) := by
  have hd : edge1 - edge0 ≠ 0 := sub_ne_zero.mpr h
  simp [smoothstepJS, smoothstep, JSNum.div, JSNum.sub, JSNum.mul,
    JSNum.fmin, JSNum.fmax, hd]

theorem smoothstep_nonneg (edge0 edge1 x : ℚ) : 0 ≤ smoothstep edge0 edge1 x :=
  le_max_left 0 _

theorem smoothstep_le_one (edge0 edge1 x : ℚ) : smoothstep edge0 edge1 x ≤ 1 :=
  max_le (by norm_num) (min_le_left 1 _)

theorem smoothstep_at_edge0 (edge0 edge1 : ℚ) : smoothstep edge0 edge1 edge0 = 0 := by
  simp [smoothstep]

theorem smoothstep_at_edge1 (edge0 edge1 : ℚ) (h : edge0 ≠ edge1) :
    smoothstep edge0 edge1 edge1 = 1 := by
  have hd : edge1 - edge0 ≠ 0 := sub_ne_zero.mpr (Ne.symm h)
  simp [smoothstep, div_self hd]
  norm_num

/-- Claim C1: for every blend interval with edge0 < edge1 and every axis
value v, the skin-weight quad (1-w, w, 0, 0) produced via smoothstep has
both active components in [0,1], they sum to 1 exactly (hence within 1e-6),
the pair is (1,0) at v = edge0 and (0,1) at v = edge1, and the remaining
two of the four slots are always zero.  The last conjunct ties the rational
computation to the faithful JSNum embedding on this non-degenerate range. -/
theorem c1_blend_weight_pair (edge0 edge1 v : ℚ) (h : edge0 < edge1) :
    (0 ≤ (skinWeightQuad edge0 edge1 v).1 ∧ (skinWeightQuad edge0 edge1 v).1 ≤ 1) ∧
    (0 ≤ (skinWeightQuad edge0 edge1 v).2.1 ∧ (skinWeightQuad edge0 edge1 v).2.1 ≤ 1) ∧
    (skinWeightQuad edge0 edge1 v).1 + (skinWeightQuad edge0 edge1 v).2.1 = 1 ∧
    |(skinWeightQuad edge0 edge1 v).1 + (skinWeightQuad edge0 edge1 v).2.1 - 1|
      ≤ 1 / 1000000 ∧
    (skinWeightQuad edge0 edge1 v).2.2.1 = 0 ∧
    (skinWeightQuad edge0 edge1 v).2.2.2 = 0 ∧
    (v = edge0 →
      (skinWeightQuad edge0 edge1 v).1 = 1 ∧ (skinWeightQuad edge0 edge1 v).2.1 = 0) ∧
    (v = edge1 →
      (skinWeightQuad edge0 edge1 v).1 = 0 ∧ (skinWeightQuad edge0 edge1 v).2.1 = 1) ∧
    smoothstepJS edge0 edge1 v = .fin (smoothstep edge0 edge1 v) := by
  have h0 := smoothstep_nonneg edge0 edge1 v
  have h1 := smoothstep_le_one edge0 edge1 v
  refine ⟨⟨by simp [skinWeightQuad]; linarith, by simp [skinWeightQuad]; linarith⟩,
    ⟨by simpa [skinWeightQuad] using h0, by simpa [skinWeightQuad] using h1⟩,
    by simp [skinWeightQuad],
    by simp [skinWeightQuad],
    by simp [skinWeightQuad],
    by simp [skinWeightQuad],
    ?_, ?_, smoothstepJS_eq_fin edge0 edge1 v (ne_of_gt h)⟩
  · intro hv
    have hs : smoothstep edge0 edge1 v = 0 := by
      rw [hv]; exact smoothstep_at_edge0 edge0 edge1
    simp [skinWeightQuad, hs]
  · intro hv
    have hs : smoothstep edge0 edge1 v = 1 := by
      rw [hv]; exact smoothstep_at_edge1 edge0 edge1 (ne_of_lt h)
    simp [skinWeightQuad, hs]

/-- Witness for c1_blend_weight_pair at edge0 = 0, edge1 = 1, v = 1/2. -/
theorem c1_blend_weight_pair_witness :
    (0:ℚ) < 1 ∧
    ((0 ≤ (skinWeightQuad 0 1 (1/2)).1 ∧ (skinWeightQuad 0 1 (1/2)).1 ≤ 1) ∧
    (0 ≤ (skinWeightQuad 0 1 (1/2)).2.1 ∧ (skinWeightQuad 0 1 (1/2)).2.1 ≤ 1) ∧
    (skinWeightQuad 0 1 (1/2)).1 + (skinWeightQuad 0 1 (1/2)).2.1 = 1 ∧
    |(skinWeightQuad 0 1 (1/2)).1 + (skinWeightQuad 0 1 (1/2)).2.1 - 1|
      ≤ 1 / 1000000 ∧
    (skinWeightQuad 0 1 (1/2)).2.2.1 = 0 ∧
    (skinWeightQuad 0 1 (1/2)).2.2.2 = 0 ∧
    ((1:ℚ)/2 = 0 →
      (skinWeightQuad 0 1 (1/2)).1 = 1 ∧ (skinWeightQuad 0 1 (1/2)).2.1 = 0) ∧
    ((1:ℚ)/2 = 1 →
      (skinWeightQuad 0 1 (1/2)).1 = 0 ∧ (skinWeightQuad 0 1 (1/2)).2.1 = 1) ∧
    smoothstepJS 0 1 (1/2) = .fin (smoothstep 0 1 (1/2))) :=
  ⟨by norm_num, c1_blend_weight_pair 0 1 (1/2) (by norm_num)⟩

/-- Counterexample to claim C2: with the degenerate interval
edge0 = edge1 = 0 the source performs the division (x - 0) / 0 unguarded.
At x = 1 the quotient is +Infinity, so t clamps to 1 (not to 0 as the claim
states) and the weight pair is (0, 1) instead of the claimed fallback
(1, 0); at x = 0 the quotient is NaN, which propagates through every clamp,
so the returned pair is (NaN, NaN), not a defined numeric pair. -/
theorem c2_degenerate_counterexample :
    smoothstepJS 0 0 1 = .fin 1 ∧
    skinWeightPairJS 0 0 1 = (.fin 0, .fin 1) ∧
    smoothstepJS 0 0 0 = .nan ∧
    skinWeightPairJS 0 0 0 = (.nan, .nan) := by
  refine ⟨?_, ?_, ?_, ?_⟩ <;>
    norm_num [smoothstepJS, skinWeightPairJS, JSNum.div, JSNum.sub, JSNum.mul,
      JSNum.fmin, JSNum.fmax]

/-- Claim C2 as amended: with a degenerate interval (edge0 = edge1) the
computation still never throws — it is a total function; the IEEE division
by zero yields a signed infinity or NaN which the min/max clamps absorb —
but t is not clamped to 0: the result is 0 for x below the edge, 1 for x
above it, and NaN exactly at the edge, giving weight pairs (1,0), (0,1)
and (NaN,NaN) respectively.  No DegenerateBlendRegionError is reported
(no such error exists in the code). -/
theorem c2_degenerate_total (e x : ℚ) :
    (x < e → smoothstepJS e e x = .fin 0 ∧
      skinWeightPairJS e e x = (.fin 1, .fin 0)) ∧
    (e < x → smoothstepJS e e x = .fin 1 ∧
      skinWeightPairJS e e x = (.fin 0, .fin 1)) ∧
    (x = e → smoothstepJS e e x = .nan ∧
      skinWeightPairJS e e x = (.nan, .nan)) := by
  have he : e - e = 0 := sub_self e
  refine ⟨fun hx => ?_, fun hx => ?_, fun hx => ?_⟩
  · have h1 : ¬ (0 < x - e) := by linarith
    have h2 : x - e < 0 := by linarith
    constructor <;>
      simp [smoothstepJS, skinWeightPairJS, JSNum.div, JSNum.sub, JSNum.mul,
        JSNum.fmin, JSNum.fmax, he, h1, h2]
  · have h1 : 0 < x - e := by linarith
    constructor <;>
      norm_num [smoothstepJS, skinWeightPairJS, JSNum.div, JSNum.sub, JSNum.mul,
        JSNum.fmin, JSNum.fmax, he, h1]
  · subst hx
    constructor <;>
      norm_num [smoothstepJS, skinWeightPairJS, JSNum.div, JSNum.sub, JSNum.mul,
        JSNum.fmin, JSNum.fmax]

/-- Witness for c2_degenerate_total, exercising all three branches at
e = 0 with x = -1, 1 and 0. -/
theorem c2_degenerate_total_witness :
    smoothstepJS 0 0 (-1) = .fin 0 ∧
    smoothstepJS 0 0 1 = .fin 1 ∧
    smoothstepJS 0 0 0 = .nan :=
  ⟨((c2_degenerate_total 0 (-1)).1 (by norm_num)).1,
   ((c2_degenerate_total 0 1).2.1 (by norm_num)).1,
   ((c2_degenerate_total 0 0).2.2 rfl).1⟩

/-! ### Face region segmenter (createHead, src/unnamed/part_001 lines 426-509)

Vertices are classified into at most one region by the if / else-if chain
at lines 439-445; triangles are then grouped by a 2-of-3 majority vote in
the fixed priority order mouth, leftEye, rightEye, face (lines 465-491),
and the index buffer is rebuilt as face ++ mouth ++ leftEye ++ rightEye
(lines 494-509).  Triangles are modelled as triples of vertex indices
(the source flattens each triple into three consecutive index entries). -/

inductive FaceGroup where
  | face | mouth | leftEye | rightEye
deriving DecidableEq, Repr

def triVerts (t : ℕ × ℕ × ℕ) : List ℕ := [t.1, t.2.1, t.2.2]

/-- Embedding of [i0, i1, i2].filter((i) => idxs.includes(i)).length. -/
def regionCount (idxs : List ℕ) (t : ℕ × ℕ × ℕ) : ℕ :=
  ((triVerts t).filter (fun i => idxs.contains i)).length

/-- Embedding of the if / else-if majority-vote chain at lines 482-491. -/
def classifyTriangle (ms ls rs : List ℕ) (t : ℕ × ℕ × ℕ) : FaceGroup :=
  if 2 ≤ regionCount ms t then .mouth
  else if 2 ≤ regionCount ls t then .leftEye
  else if 2 ≤ regionCount rs t then .rightEye
  else .face

/-- The four triangle groups (faceIndices, mouthIndices, leftEyeIndices,
rightEyeIndices); the loop pushes each triangle into exactly one list in
iteration order, which is what these order-preserving filters compute. -/
def segmentTriangles (ms ls rs : List ℕ) (tris : List (ℕ × ℕ × ℕ)) :
    List (ℕ × ℕ × ℕ) × List (ℕ × ℕ × ℕ) × List (ℕ × ℕ × ℕ) × List (ℕ × ℕ × ℕ) :=
  (tris.filter (fun t => classifyTriangle ms ls rs t == .face),
   tris.filter (fun t => classifyTriangle ms ls rs t == .mouth),
   tris.filter (fun t => classifyTriangle ms ls rs t == .leftEye),
   tris.filter (fun t => classifyTriangle ms ls rs t == .rightEye))

/-- Embedding of newIndices = [...faceIndices, ...mouthIndices,
...leftEyeIndices, ...rightEyeIndices] at lines 494-499. -/
def reorderedTriangles (ms ls rs : List ℕ) (tris : List (ℕ × ℕ × ℕ)) :
    List (ℕ × ℕ × ℕ) :=
  let s := segmentTriangles ms ls rs tris
  s.1 ++ s.2.1 ++ s.2.2.1 ++ s.2.2.2

theorem regionCount_perm (idxs : List ℕ) (t u : ℕ × ℕ × ℕ)
    (h : (triVerts u).Perm (triVerts t)) : regionCount idxs u = regionCount idxs t := by
  unfold regionCount
  rw [← List.countP_eq_length_filter, ← List.countP_eq_length_filter]
  exact h.countP_eq _

/-- Claim C3: a triangle is assigned to a region exactly when that region
has a 2-of-3 vertex majority, resolved in the fixed priority order mouth,
leftEye, rightEye, face; the assignment is invariant under permutations of
the triangle's vertex enumeration, and two mouth-labeled vertices force
the mouth group whatever the third vertex is. -/
theorem c3_majority_priority (ms ls rs : List ℕ) (t : ℕ × ℕ × ℕ) :
    (classifyTriangle ms ls rs t = .mouth ↔ 2 ≤ regionCount ms t) ∧
    (classifyTriangle ms ls rs t = .leftEye ↔
      regionCount ms t < 2 ∧ 2 ≤ regionCount ls t) ∧
    (classifyTriangle ms ls rs t = .rightEye ↔
      regionCount ms t < 2 ∧ regionCount ls t < 2 ∧ 2 ≤ regionCount rs t) ∧
    (classifyTriangle ms ls rs t = .face ↔
      regionCount ms t < 2 ∧ regionCount ls t < 2 ∧ regionCount rs t < 2) ∧
    (∀ u : ℕ × ℕ × ℕ, (triVerts u).Perm (triVerts t) →
      classifyTriangle ms ls rs u = classifyTriangle ms ls rs t) ∧
    (t.1 ∈ ms → t.2.1 ∈ ms → classifyTriangle ms ls rs t = .mouth) := by
  refine ⟨?_, ?_, ?_, ?_, ?_, ?_⟩
  · unfold classifyTriangle; split_ifs with h1 h2 h3 <;> simp_all
  · unfold classifyTriangle; split_ifs with h1 h2 h3 <;> simp_all
  · unfold classifyTriangle; split_ifs with h1 h2 h3 <;> simp_all
  · unfold classifyTriangle; split_ifs with h1 h2 h3 <;> simp_all
  · intro u hu
    unfold classifyTriangle
    rw [regionCount_perm ms t u hu, regionCount_perm ls t u hu,
      regionCount_perm rs t u hu]
  · intro h1 h2
    have hc : 2 ≤ regionCount ms t := by
      unfold regionCount triVerts
      have e1 : ms.contains t.1 = true := List.elem_eq_true_of_mem h1
      have e2 : ms.contains t.2.1 = true := List.elem_eq_true_of_mem h2
      simp only [List.filter, e1, e2]
      split <;> simp
    unfold classifyTriangle
    rw [if_pos hc]

/-- Witness for c3_majority_priority: with mouth vertices {0, 1} and
left-eye vertex {2}, the triangle (0, 1, 2) and its reversal (2, 1, 0)
both land in the mouth group. -/
theorem c3_majority_priority_witness :
    classifyTriangle [0, 1] [2] [] (0, 1, 2) = .mouth ∧
    classifyTriangle [0, 1] [2] [] (2, 1, 0) = .mouth := by
  have h := c3_majority_priority [0, 1] [2] [] (0, 1, 2)
  refine ⟨h.2.2.2.2.2 (by decide) (by decide), ?_⟩
  have hp := h.2.2.2.2.1 (2, 1, 0) (by decide)
  rw [hp]
  exact h.2.2.2.2.2 (by decide) (by decide)

theorem filter_classify_lengths (ms ls rs : List ℕ) (tris : List (ℕ × ℕ × ℕ)) :
    (tris.filter (fun t => classifyTriangle ms ls rs t == .face)).length +
    (tris.filter (fun t => classifyTriangle ms ls rs t == .mouth)).length +
    (tris.filter (fun t => classifyTriangle ms ls rs t == .leftEye)).length +
    (tris.filter (fun t => classifyTriangle ms ls rs t == .rightEye)).length
      = tris.length := by
  induction tris with
  | nil => simp
  | cons t rest ih =>
    simp only [List.filter_cons]
    rcases h : classifyTriangle ms ls rs t <;> simp [h] <;> omega

theorem segment_lengths (ms ls rs : List ℕ) (tris : List (ℕ × ℕ × ℕ)) :
    (segmentTriangles ms ls rs tris).1.length +
    (segmentTriangles ms ls rs tris).2.1.length +
    (segmentTriangles ms ls rs tris).2.2.1.length +
    (segmentTriangles ms ls rs tris).2.2.2.length = tris.length := by
  simpa [segmentTriangles] using filter_classify_lengths ms ls rs tris

/-- Claim C4: the segmentation is a partition — every input triangle lands
in exactly one of the four groups, the group lengths sum to the input
triangle count, the re-ordered buffer has the same triangle count, and in
the re-ordered buffer the four groups occupy consecutive contiguous
ranges (face first, then mouth, leftEye, rightEye). -/
theorem c4_segmentation_partition (ms ls rs : List ℕ) (tris : List (ℕ × ℕ × ℕ)) :
    (∀ t ∈ tris,
      ((t ∈ (segmentTriangles ms ls rs tris).1 ∧
        t ∉ (segmentTriangles ms ls rs tris).2.1 ∧
        t ∉ (segmentTriangles ms ls rs tris).2.2.1 ∧
        t ∉ (segmentTriangles ms ls rs tris).2.2.2) ∨
       (t ∉ (segmentTriangles ms ls rs tris).1 ∧
        t ∈ (segmentTriangles ms ls rs tris).2.1 ∧
        t ∉ (segmentTriangles ms ls rs tris).2.2.1 ∧
        t ∉ (segmentTriangles ms ls rs tris).2.2.2) ∨
       (t ∉ (segmentTriangles ms ls rs tris).1 ∧
        t ∉ (segmentTriangles ms ls rs tris).2.1 ∧
        t ∈ (segmentTriangles ms ls rs tris).2.2.1 ∧
        t ∉ (segmentTriangles ms ls rs tris).2.2.2) ∨
       (t ∉ (segmentTriangles ms ls rs tris).1 ∧
        t ∉ (segmentTriangles ms ls rs tris).2.1 ∧
        t ∉ (segmentTriangles ms ls rs tris).2.2.1 ∧
        t ∈ (segmentTriangles ms ls rs tris).2.2.2))) ∧
    (segmentTriangles ms ls rs tris).1.length +
      (segmentTriangles ms ls rs tris).2.1.length +
      (segmentTriangles ms ls rs tris).2.2.1.length +
      (segmentTriangles ms ls rs tris).2.2.2.length = tris.length ∧
    (reorderedTriangles ms ls rs tris).length = tris.length ∧
    (reorderedTriangles ms ls rs tris).take
      (segmentTriangles ms ls rs tris).1.length = (segmentTriangles ms ls rs tris).1 ∧
    (((reorderedTriangles ms ls rs tris).drop
      (segmentTriangles ms ls rs tris).1.length).take
      (segmentTriangles ms ls rs tris).2.1.length = (segmentTriangles ms ls rs tris).2.1) ∧
    ((((reorderedTriangles ms ls rs tris).drop
      (segmentTriangles ms ls rs tris).1.length).drop
      (segmentTriangles ms ls rs tris).2.1.length).take
      (segmentTriangles ms ls rs tris).2.2.1.length = (segmentTriangles ms ls rs tris).2.2.1) ∧
    ((((reorderedTriangles ms ls rs tris).drop
      (segmentTriangles ms ls rs tris).1.length).drop
      (segmentTriangles ms ls rs tris).2.1.length).drop
      (segmentTriangles ms ls rs tris).2.2.1.length = (segmentTriangles ms ls rs tris).2.2.2) := by
  refine ⟨?_, segment_lengths ms ls rs tris, ?_, ?_, ?_, ?_, ?_⟩
  · intro t ht
    rcases h : classifyTriangle ms ls rs t
    · exact Or.inl (by simp [segmentTriangles, List.mem_filter, ht, h])
    · exact Or.inr (Or.inl (by simp [segmentTriangles, List.mem_filter, ht, h]))
    · exact Or.inr (Or.inr (Or.inl (by simp [segmentTriangles, List.mem_filter, ht, h])))
    · exact Or.inr (Or.inr (Or.inr (by simp [segmentTriangles, List.mem_filter, ht, h])))
  · have := segment_lengths ms ls rs tris
    simp only [reorderedTriangles, List.length_append]
    omega
  · simp [reorderedTriangles, List.take_left]
  · simp [reorderedTriangles, List.drop_left, List.take_left]
  · simp [reorderedTriangles, List.drop_left, List.take_left]
  · simp [reorderedTriangles, List.drop_left]

/-- Witness for c4_segmentation_partition on a concrete two-triangle mesh:
the triangle (0,1,2) has a mouth majority, the triangle (3,4,5) has none. -/
theorem c4_segmentation_partition_witness :
    (0, 1, 2) ∈ (segmentTriangles [0, 1] [] [] [(0, 1, 2), (3, 4, 5)]).2.1 ∧
    (segmentTriangles [0, 1] [] [] [(0, 1, 2), (3, 4, 5)]).1.length +
      (segmentTriangles [0, 1] [] [] [(0, 1, 2), (3, 4, 5)]).2.1.length +
      (segmentTriangles [0, 1] [] [] [(0, 1, 2), (3, 4, 5)]).2.2.1.length +
      (segmentTriangles [0, 1] [] [] [(0, 1, 2), (3, 4, 5)]).2.2.2.length = 2 := by
  have h := c4_segmentation_partition [0, 1] [] [] [(0, 1, 2), (3, 4, 5)]
  have hm := h.1 (0, 1, 2) (by decide)
  refine ⟨?_, h.2.1⟩
  rcases hm with hm | hm | hm | hm
  · exact absurd hm.1 (by decide)
  · exact hm.2.1
  · exact absurd hm.2.2.1 (by decide)
  · exact absurd hm.2.2.2 (by decide)

/-! ### Per-vertex region classification (createHead, lines 426-446)

For each vertex index i the source tests, in this order,
  y < -0.1 && y > -0.3 && z > 0.1 && |x| < 0.15        -> mouthVertexIndices
  else 0.4 < u && u < 0.5 && 0.05 < v && v < 0.1       -> leftEyeVertexIndices
  else 0.5 < u && u < 0.6 && 0.05 < v && v < 0.1       -> rightEyeVertexIndices
and pushes i into at most one of the three lists. -/

structure Vertex where
  x : ℚ
  y : ℚ
  z : ℚ
  u : ℚ
  v : ℚ

def isMouthVert (p : Vertex) : Bool :=
  decide (p.y < -(1/10)) && decide (-(3/10) < p.y) && decide ((1/10) < p.z) &&
    decide (|p.x| < 3/20)

def isLeftEyeVert (p : Vertex) : Bool :=
  decide ((2/5) < p.u) && decide (p.u < 1/2) && decide ((1/20) < p.v) &&
    decide (p.v < 1/10)

def isRightEyeVert (p : Vertex) : Bool :=
  decide ((1/2) < p.u) && decide (p.u < 3/5) && decide ((1/20) < p.v) &&
    decide (p.v < 1/10)

/-- The classification loop: starting at vertex index i0, build the three
region index lists (mouth, leftEye, rightEye) for the remaining vertices,
respecting the if / else-if chain of the source. -/
def classifyVertsFrom (i0 : ℕ) : List Vertex → List ℕ × List ℕ × List ℕ
  | [] => ([], [], [])
  | p :: rest =>
    let s := classifyVertsFrom (i0 + 1) rest
    if isMouthVert p then (i0 :: s.1, s.2.1, s.2.2)
    else if isLeftEyeVert p then (s.1, i0 :: s.2.1, s.2.2)
    else if isRightEyeVert p then (s.1, s.2.1, i0 :: s.2.2)
    else s

def classifyVerts (vs : List Vertex) : List ℕ × List ℕ × List ℕ :=
  classifyVertsFrom 0 vs

theorem classifyVertsFrom_mem_ge (i0 : ℕ) (vs : List Vertex) (j : ℕ) :
    (j ∈ (classifyVertsFrom i0 vs).1 → i0 ≤ j) ∧
    (j ∈ (classifyVertsFrom i0 vs).2.1 → i0 ≤ j) ∧
    (j ∈ (classifyVertsFrom i0 vs).2.2 → i0 ≤ j) := by
  induction vs generalizing i0 with
  | nil => simp [classifyVertsFrom]
  | cons p rest ih =>
    have h1 := (ih (i0 + 1)).1
    have h2 := (ih (i0 + 1)).2.1
    have h3 := (ih (i0 + 1)).2.2
    unfold classifyVertsFrom
    split_ifs <;>
      refine ⟨?_, ?_, ?_⟩ <;> intro hj <;>
      simp only [List.mem_cons] at hj <;>
      first
        | (rcases hj with rfl | hj
           · omega
           · first
               | exact le_of_lt (Nat.lt_of_succ_le (h1 hj))
               | exact le_of_lt (Nat.lt_of_succ_le (h2 hj))
               | exact le_of_lt (Nat.lt_of_succ_le (h3 hj)))
        | exact le_of_lt (Nat.lt_of_succ_le (h1 hj))
        | exact le_of_lt (Nat.lt_of_succ_le (h2 hj))
        | exact le_of_lt (Nat.lt_of_succ_le (h3 hj))

theorem classifyVertsFrom_disjoint (i0 : ℕ) (vs : List Vertex) (j : ℕ) :
    ¬(j ∈ (classifyVertsFrom i0 vs).1 ∧ j ∈ (classifyVertsFrom i0 vs).2.1) ∧
    ¬(j ∈ (classifyVertsFrom i0 vs).1 ∧ j ∈ (classifyVertsFrom i0 vs).2.2) ∧
    ¬(j ∈ (classifyVertsFrom i0 vs).2.1 ∧ j ∈ (classifyVertsFrom i0 vs).2.2) := by
  induction vs generalizing i0 with
  | nil => simp [classifyVertsFrom]
  | cons p rest ih =>
    have hge := classifyVertsFrom_mem_ge (i0 + 1) rest j
    have hd := ih (i0 + 1)
    unfold classifyVertsFrom
    split_ifs with h1 h2 h3
    · refine ⟨?_, ?_, ?_⟩ <;> rintro ⟨ha, hb⟩
      · rcases List.mem_cons.mp ha with rfl | ha
        · exact absurd (hge.2.1 hb) (by omega)
        · exact hd.1 ⟨ha, hb⟩
      · rcases List.mem_cons.mp ha with rfl | ha
        · exact absurd (hge.2.2 hb) (by omega)
        · exact hd.2.1 ⟨ha, hb⟩
      · exact hd.2.2 ⟨ha, hb⟩
    · refine ⟨?_, ?_, ?_⟩ <;> rintro ⟨ha, hb⟩
      · rcases List.mem_cons.mp hb with rfl | hb
        · exact absurd (hge.1 ha) (by omega)
        · exact hd.1 ⟨ha, hb⟩
      · exact hd.2.1 ⟨ha, hb⟩
      · rcases List.mem_cons.mp ha with rfl | ha
        · exact absurd (hge.2.2 hb) (by omega)
        · exact hd.2.2 ⟨ha, hb⟩
    · refine ⟨?_, ?_, ?_⟩ <;> rintro ⟨ha, hb⟩
      · exact hd.1 ⟨ha, hb⟩
      · rcases List.mem_cons.mp hb with rfl | hb
        · exact absurd (hge.1 ha) (by omega)
        · exact hd.2.1 ⟨ha, hb⟩
      · rcases List.mem_cons.mp hb with rfl | hb
        · exact absurd (hge.2.1 ha) (by omega)
        · exact hd.2.2 ⟨ha, hb⟩
    · exact hd

theorem countP_two_disjoint (A B : List ℕ) (l : List ℕ)
    (hAB : ∀ j, j ∈ A → j ∈ B → False) :
    l.countP (fun i => A.contains i) + l.countP (fun i => B.contains i) ≤ l.length := by
  have hc : ∀ (X : List ℕ), (fun i => X.contains i) = (fun i => decide (i ∈ X)) :=
    fun X => funext fun i => by simp
  rw [hc A, hc B]
  induction l with
  | nil => simp
  | cons a rest ih =>
    simp only [List.countP_cons, List.length_cons]
    by_cases hA : a ∈ A
    · have hB : a ∉ B := fun hb => hAB a hA hb
      simp [hA, hB]
      omega
    · by_cases hB : a ∈ B <;> simp [hA, hB] <;> omega

/-- Claim C10: the mouth, left-eye and right-eye vertex-index lists built
by the if / else-if chain in createHead are pairwise disjoint (each vertex
is classified into at most one region), and consequently for every
triangle at most one region can reach a 2-of-3 vertex majority, so the
fixed priority order never has to break a genuine two-region tie. -/
theorem c10_vertex_regions_disjoint (vs : List Vertex) :
    (∀ j : ℕ,
      ¬(j ∈ (classifyVerts vs).1 ∧ j ∈ (classifyVerts vs).2.1) ∧
      ¬(j ∈ (classifyVerts vs).1 ∧ j ∈ (classifyVerts vs).2.2) ∧
      ¬(j ∈ (classifyVerts vs).2.1 ∧ j ∈ (classifyVerts vs).2.2)) ∧
    (∀ t : ℕ × ℕ × ℕ,
      ¬(2 ≤ regionCount (classifyVerts vs).1 t ∧
        2 ≤ regionCount (classifyVerts vs).2.1 t) ∧
      ¬(2 ≤ regionCount (classifyVerts vs).1 t ∧
        2 ≤ regionCount (classifyVerts vs).2.2 t) ∧
      ¬(2 ≤ regionCount (classifyVerts vs).2.1 t ∧
        2 ≤ regionCount (classifyVerts vs).2.2 t)) := by
  have hd : ∀ j : ℕ,
      ¬(j ∈ (classifyVerts vs).1 ∧ j ∈ (classifyVerts vs).2.1) ∧
      ¬(j ∈ (classifyVerts vs).1 ∧ j ∈ (classifyVerts vs).2.2) ∧
      ¬(j ∈ (classifyVerts vs).2.1 ∧ j ∈ (classifyVerts vs).2.2) :=
    fun j => classifyVertsFrom_disjoint 0 vs j
  refine ⟨hd, fun t => ?_⟩
  have hlen : (triVerts t).length = 3 := rfl
  have e : ∀ (X : List ℕ), regionCount X t = (triVerts t).countP (fun i => X.contains i) :=
    fun X => (List.countP_eq_length_filter _ _).symm
  have k1 := countP_two_disjoint (classifyVerts vs).1 (classifyVerts vs).2.1 (triVerts t)
    (fun j x y => (hd j).1 ⟨x, y⟩)
  have k2 := countP_two_disjoint (classifyVerts vs).1 (classifyVerts vs).2.2 (triVerts t)
    (fun j x y => (hd j).2.1 ⟨x, y⟩)
  have k3 := countP_two_disjoint (classifyVerts vs).2.1 (classifyVerts vs).2.2 (triVerts t)
    (fun j x y => (hd j).2.2 ⟨x, y⟩)
  rw [hlen] at k1 k2 k3
  refine ⟨?_, ?_, ?_⟩ <;> rintro ⟨ha, hb⟩ <;> rw [e] at ha hb <;> omega

/-- Demonstration vertex list: one mouth-region vertex and one
left-eye-region vertex. -/
def demoVerts : List Vertex :=
  [⟨0, -(1/5), 1/5, 0, 0⟩, ⟨0, 0, 0, 9/20, 2/25⟩]

/-- Witness for c10_vertex_regions_disjoint on demoVerts. -/
theorem c10_vertex_regions_disjoint_witness :
    ¬((0 : ℕ) ∈ (classifyVerts demoVerts).1 ∧ 0 ∈ (classifyVerts demoVerts).2.1) ∧
    ¬(2 ≤ regionCount (classifyVerts demoVerts).1 (0, 0, 1) ∧
      2 ≤ regionCount (classifyVerts demoVerts).2.1 (0, 0, 1)) :=
  ⟨((c10_vertex_regions_disjoint demoVerts).1 0).1,
   ((c10_vertex_regions_disjoint demoVerts).2 (0, 0, 1)).1⟩

/-! ### Rig export extension writer (exporter plugin, lines 984-1275)

The afterParse hook builds a name-to-index map over gltf.nodes (skipping
nodes whose name is missing or the empty string, which is falsy in
JavaScript; a later node with the same name overwrites an earlier one),
emits humanBones entries for the 20 canonical bone names (warning, not
erroring, on missing ones), pushes "VRMC_vrm" onto extensionsUsed
unconditionally, and attaches the expression preset block whose texture
transform binds reference material indices through materialToIndex
(built by writeMaterialAsync in traversal order). -/

structure GNode where
  name : Option String
deriving DecidableEq, Repr

/-- Lookup modelling the Map built by gltf.nodes.forEach (lines 1004-1009):
iterating forward and overwriting means the last node bearing the name
wins, and falsy (missing or empty) names are skipped. -/
def nodeNameToIndexFrom (base : ℕ) : List GNode → String → Option ℕ
  | [], _ => none
  | n :: rest, name =>
    match nodeNameToIndexFrom (base + 1) rest name with
    | some i => some i
    | none =>
      match n.name with
      | some s => if s ≠ "" ∧ s = name then some base else none
      | none => none

def nodeNameToIndex (nodes : List GNode) (name : String) : Option ℕ :=
  nodeNameToIndexFrom 0 nodes name

/-- The 20 canonical humanoid bone names of lines 1011-1032, in source order. -/
def boneNames : List String :=
  ["hips", "spine", "chest", "upperChest", "neck", "head",
   "leftUpperLeg", "leftLowerLeg", "leftFoot",
   "rightUpperLeg", "rightLowerLeg", "rightFoot",
   "leftShoulder", "leftUpperArm", "leftLowerArm", "leftHand",
   "rightShoulder", "rightUpperArm", "rightLowerArm", "rightHand"]

/-- The humanBones object of lines 1033-1041: found names produce
(name, nodeIndex) entries in order; missing names are skipped. -/
def humanBones (nodes : List GNode) : List (String × ℕ) :=
  boneNames.filterMap fun bn => (nodeNameToIndex nodes bn).map fun i => (bn, i)

/-- The console.warn calls of line 1039: one warning per canonical bone
name that is not found in the node list. -/
def missingBoneWarnings (nodes : List GNode) : List String :=
  boneNames.filter fun bn => (nodeNameToIndex nodes bn).isNone

theorem nodeNameToIndexFrom_correct (nodes : List GNode) :
    ∀ (base : ℕ) (name : String) (i : ℕ),
      nodeNameToIndexFrom base nodes name = some i →
      ∃ j, ∃ h : j < nodes.length, i = base + j ∧ (nodes.get ⟨j, h⟩).name = some name := by
  induction nodes with
  | nil => intro base name i h; simp [nodeNameToIndexFrom] at h
  | cons n rest ih =>
    intro base name i h
    unfold nodeNameToIndexFrom at h
    split at h
    · rename_i k hk
      have hki : k = i := Option.some.inj h
      subst hki
      obtain ⟨j, hj, hkeq, hname⟩ := ih (base + 1) name k hk
      refine ⟨j + 1, by simpa using Nat.succ_lt_succ hj, by omega, ?_⟩
      simpa using hname
    · rename_i hk
      split at h
      · rename_i s hs
        split at h
        · rename_i hc
          have hbi : base = i := Option.some.inj h
          refine ⟨0, by simp, by omega, ?_⟩
          simp [hs, hc.2]
        · exact absurd h (by simp)
      · exact absurd h (by simp)

theorem nodeNameToIndex_correct (nodes : List GNode) (name : String) (i : ℕ)
    (h : nodeNameToIndex nodes name = some i) :
    ∃ hi : i < nodes.length, (nodes.get ⟨i, hi⟩).name = some name := by
  obtain ⟨j, hj, hkeq, hname⟩ := nodeNameToIndexFrom_correct nodes 0 name i h
  have : i = j := by omega
  subst this
  exact ⟨hj, hname⟩

theorem filterMap_keys_of_all_found (f : String → Option ℕ) (l : List String)
    (h : ∀ bn ∈ l, (f bn).isSome) :
    (l.filterMap (fun bn => (f bn).map (fun i => (bn, i)))).map Prod.fst = l := by
  induction l with
  | nil => simp
  | cons a rest ih =>
    have ha := h a (List.mem_cons_self a rest)
    rcases hf : f a with _ | i
    · rw [hf] at ha; simp at ha
    · simp [List.filterMap_cons, hf,
        ih (fun bn hbn => h bn (List.mem_cons_of_mem a hbn))]

/-- Claim C5: if every canonical bone name occurs in the exported node
list, humanBones has exactly 20 entries keyed by the canonical names in
order, each holding the index of a node carrying that name, and no
warning is logged; any canonical name absent from the node list is
omitted from humanBones and appears in the warning list instead — the
hook is a total function, so nothing is thrown. -/
theorem c5_human_bones_map (nodes : List GNode) :
    ((∀ bn ∈ boneNames, (nodeNameToIndex nodes bn).isSome) →
      (humanBones nodes).map Prod.fst = boneNames ∧
      (humanBones nodes).length = 20 ∧
      missingBoneWarnings nodes = []) ∧
    (∀ p ∈ humanBones nodes,
      nodeNameToIndex nodes p.1 = some p.2 ∧
      ∃ hi : p.2 < nodes.length, (nodes.get ⟨p.2, hi⟩).name = some p.1) ∧
    (∀ bn ∈ boneNames, nodeNameToIndex nodes bn = none →
      (∀ p ∈ humanBones nodes, p.1 ≠ bn) ∧ bn ∈ missingBoneWarnings nodes) := by
  have hmem : ∀ p ∈ humanBones nodes, nodeNameToIndex nodes p.1 = some p.2 := by
    intro p hp
    obtain ⟨bn, _, heq⟩ := List.mem_filterMap.mp hp
    obtain ⟨i, hi, hpe⟩ := Option.map_eq_some'.mp heq
    cases hpe
    exact hi
  refine ⟨fun hall => ?_, fun p hp => ⟨hmem p hp, ?_⟩, fun bn hbn hnone => ⟨?_, ?_⟩⟩
  · have hkeys := filterMap_keys_of_all_found (nodeNameToIndex nodes) boneNames hall
    refine ⟨hkeys, ?_, ?_⟩
    · have hlen : (humanBones nodes).length = boneNames.length := by
        have h2 := congrArg List.length hkeys
        rwa [List.length_map] at h2
      rw [hlen]
      rfl
    · unfold missingBoneWarnings
      rw [List.filter_eq_nil_iff]
      intro bn hbn
      have hs := hall bn hbn
      simp only [Option.isNone_iff_eq_none]
      intro hcon
      rw [hcon] at hs
      simp at hs
  · exact nodeNameToIndex_correct nodes p.1 p.2 (hmem p hp)
  · intro p hp hpe
    have := hmem p hp
    rw [hpe, hnone] at this
    exact absurd this (by simp)
  · unfold missingBoneWarnings
    rw [List.mem_filter]
    exact ⟨hbn, by simp [hnone]⟩

/-- Exported node list carrying all 20 canonical bone names. -/
def exportNodesAll : List GNode := boneNames.map fun s => ⟨some s⟩

/-- Exported node list missing the "hips" node. -/
def exportNodesNoHips : List GNode := (boneNames.drop 1).map fun s => ⟨some s⟩

/-- Witness for c5_human_bones_map: a node list with all 20 canonical
names yields a complete 20-entry rig with no warnings, and dropping
"hips" yields a warning instead of an error. -/
theorem c5_human_bones_map_witness :
    ((humanBones exportNodesAll).map Prod.fst = boneNames ∧
      (humanBones exportNodesAll).length = 20 ∧
      missingBoneWarnings exportNodesAll = []) ∧
    "hips" ∈ missingBoneWarnings exportNodesNoHips :=
  ⟨(c5_human_bones_map exportNodesAll).1 (by decide),
   ((c5_human_bones_map exportNodesNoHips).2.2 "hips" (by decide) (by decide)).2⟩

/-- The texture atlas slice kinds of lines 14-28, in declaration order
(Object.keys order), which fixes each kind's atlas slot index. -/
inductive TextureKind where
  | normal | aa | ih | ou | ee | oh | blinkLeft | blinkRight
deriving DecidableEq, Repr

def TextureKinds : List TextureKind :=
  [.normal, .aa, .ih, .ou, .ee, .oh, .blinkLeft, .blinkRight]

def TextureKindToIndex : TextureKind → ℕ
  | .normal => 0
  | .aa => 1
  | .ih => 2
  | .ou => 3
  | .ee => 4
  | .oh => 5
  | .blinkLeft => 6
  | .blinkRight => 7

/-- One textureTransformBinds entry; material is the result of
materialToIndex.get, which is undefined (none) when the material name was
never registered. -/
structure TTBind where
  material : Option ℕ
  offset : ℚ × ℚ
  scale : ℚ × ℚ
deriving DecidableEq, Repr

structure Preset where
  isBinary : Bool
  overrideBlink : String
  overrideLookAt : String
  overrideMouth : String
  textureTransformBinds : List TTBind
deriving DecidableEq, Repr

/-- A single bind as written in the source: material looked up by name,
offset (0, slotIndex * (1 / TextureKinds.length)), scale (1, 1). -/
def ttBind (materialToIndex : String → Option ℕ) (matName : String)
    (k : TextureKind) : TTBind :=
  { material := materialToIndex matName
    offset := (0, (TextureKindToIndex k : ℚ) * (1 / (TextureKinds.length : ℚ)))
    scale := (1, 1) }

/-- The expressions.preset block of lines 1060-1269 (the commented-out
presets of the source are omitted, as they are in the emitted document).
The mouth material is "headMouthMaterial", the eye materials are
"headLeftEyeMaterial" and "headRightEyeMaterial" (lines 557-575). -/
def buildPresets (materialToIndex : String → Option ℕ) : List (String × Preset) :=
  [("aa", ⟨true, "none", "none", "none",
      [ttBind materialToIndex "headMouthMaterial" .aa]⟩),
   ("ih", ⟨true, "none", "none", "none",
      [ttBind materialToIndex "headMouthMaterial" .ih]⟩),
   ("ou", ⟨true, "none", "none", "none",
      [ttBind materialToIndex "headMouthMaterial" .ou]⟩),
   ("ee", ⟨true, "none", "none", "none",
      [ttBind materialToIndex "headMouthMaterial" .ee]⟩),
   ("oh", ⟨true, "none", "none", "none",
      [ttBind materialToIndex "headMouthMaterial" .oh]⟩),
   ("blink", ⟨true, "none", "none", "none",
      [ttBind materialToIndex "headLeftEyeMaterial" .blinkLeft,
       ttBind materialToIndex "headRightEyeMaterial" .blinkRight]⟩),
   ("blinkLeft", ⟨true, "none", "none", "none",
      [ttBind materialToIndex "headLeftEyeMaterial" .blinkLeft]⟩),
   ("blinkRight", ⟨true, "none", "none", "none",
      [ttBind materialToIndex "headRightEyeMaterial" .blinkRight]⟩)]

structure VrmExt where
  humanBones : List (String × ℕ)
  presets : List (String × Preset)

/-- The exported document state the afterParse hook touches. -/
structure GltfDoc where
  nodes : List GNode
  extensionsUsed : Option (List String)
  vrm : Option VrmExt

/-- Lines 1045-1046: gltf.extensionsUsed = gltf.extensionsUsed || [];
gltf.extensionsUsed.push("VRMC_vrm").  The push is unconditional. -/
def pushExtensionsUsed (xs : Option (List String)) : Option (List String) :=
  some (xs.getD [] ++ ["VRMC_vrm"])

/-- The afterParse hook (lines 1001-1273): builds humanBones from the
node names, pushes the extension identifier, and installs the VRMC_vrm
extension object with the expression preset block. -/
def afterParse (materialToIndex : String → Option ℕ) (g : GltfDoc) : GltfDoc :=
  { g with
    extensionsUsed := pushExtensionsUsed g.extensionsUsed
    vrm := some ⟨humanBones g.nodes, buildPresets materialToIndex⟩ }

/-- Counterexample to claim C6: running the afterParse hook twice on an
exported document that starts with no extensionsUsed list leaves
"VRMC_vrm" in the list twice, not once — the push at lines 1045-1046 is
unconditional, hence not idempotent. -/
theorem c6_push_counterexample :
    (((afterParse (fun _ => none) (afterParse (fun _ => none)
        ⟨[], none, none⟩)).extensionsUsed.getD []).count "VRMC_vrm") = 2 := by
  decide

/-- Claim C6 as amended: one run of the hook appends exactly one
occurrence of "VRMC_vrm" to extensionsUsed (creating the list if absent),
so a document that did not contain the identifier contains it exactly
once after a single run; but the append is unconditional, so running the
hook twice leaves two occurrences — it is not idempotent. -/
theorem c6_push_once_per_run (materialToIndex : String → Option ℕ) (g : GltfDoc) :
    ((afterParse materialToIndex g).extensionsUsed.getD []).count "VRMC_vrm"
      = (g.extensionsUsed.getD []).count "VRMC_vrm" + 1 ∧
    ((g.extensionsUsed.getD []).count "VRMC_vrm" = 0 →
      ((afterParse materialToIndex g).extensionsUsed.getD []).count "VRMC_vrm" = 1 ∧
      ((afterParse materialToIndex
          (afterParse materialToIndex g)).extensionsUsed.getD []).count "VRMC_vrm" = 2) := by
  have hstep : ∀ xs : Option (List String),
      ((pushExtensionsUsed xs).getD []).count "VRMC_vrm"
        = (xs.getD []).count "VRMC_vrm" + 1 := by
    intro xs
    simp [pushExtensionsUsed, List.count_append]
  refine ⟨hstep g.extensionsUsed, fun h0 => ⟨?_, ?_⟩⟩
  · rw [show (afterParse materialToIndex g).extensionsUsed
        = pushExtensionsUsed g.extensionsUsed from rfl, hstep, h0]
  · rw [show (afterParse materialToIndex (afterParse materialToIndex g)).extensionsUsed
        = pushExtensionsUsed (pushExtensionsUsed g.extensionsUsed) from rfl,
      hstep, hstep, h0]

/-- Witness for c6_push_once_per_run on an initially empty document. -/
theorem c6_push_once_per_run_witness :
    ((afterParse (fun _ => none) ⟨[], none, none⟩).extensionsUsed.getD []).count "VRMC_vrm"
      = ((none : Option (List String)).getD []).count "VRMC_vrm" + 1 ∧
    ((afterParse (fun _ => none) ⟨[], none, none⟩).extensionsUsed.getD []).count "VRMC_vrm" = 1 :=
  ⟨(c6_push_once_per_run (fun _ => none) ⟨[], none, none⟩).1,
   ((c6_push_once_per_run (fun _ => none) ⟨[], none, none⟩).2 (by decide)).1⟩

/-- Counterexample to claim C8: with a material map in which the mouth
material name was never registered, the afterParse hook still finalizes
the document — the VRMC_vrm extension is attached, all 8 presets are
emitted, and every texture transform bind carries material = none (the
JavaScript undefined), instead of the export failing with a
MissingMaterialBindingError (no such error exists in the code). -/
theorem c8_missing_material_counterexample :
    ((afterParse (fun _ => none) ⟨[], none, none⟩).vrm.map
        (fun v => v.presets.length)) = some 8 ∧
    ((buildPresets (fun _ => none)).all
        (fun p => p.2.textureTransformBinds.all
          (fun b => b.material.isNone))) = true := by
  constructor
  · rfl
  · rfl

/-- Claim C8 as amended: when the material map has no entry for the mouth
material name, the aa preset's bind is emitted with an undefined (none)
material index, the full 8-preset block is still produced, and afterParse
still attaches the extension and finalizes the document — the export pass
does not fail and no MissingMaterialBindingError is raised. -/
theorem c8_missing_material_bind (materialToIndex : String → Option ℕ)
    (h : materialToIndex "headMouthMaterial" = none) :
    ((buildPresets materialToIndex).find? (fun p => p.1 == "aa")).map
        (fun p => p.2.textureTransformBinds.map (fun b => b.material))
      = some [none] ∧
    (buildPresets materialToIndex).length = 8 ∧
    (∀ g : GltfDoc, (afterParse materialToIndex g).vrm
      = some ⟨humanBones g.nodes, buildPresets materialToIndex⟩) := by
  refine ⟨?_, rfl, fun g => rfl⟩
  simp [buildPresets, ttBind, List.find?, h]

/-- Witness for c8_missing_material_bind at the empty material map. -/
theorem c8_missing_material_bind_witness :
    ((buildPresets (fun _ => none)).find? (fun p => p.1 == "aa")).map
        (fun p => p.2.textureTransformBinds.map (fun b => b.material))
      = some [none] ∧
    (buildPresets (fun _ => none)).length = 8 :=
  ⟨(c8_missing_material_bind (fun _ => none) rfl).1,
   (c8_missing_material_bind (fun _ => none) rfl).2.1⟩

/-! ### Skeleton graph (function addBone, lines 124-128)

The source is
  function addBone(bone) { const idx = bones.length; bones.push(bone); return idx; }
The global mutable array is modelled by explicit state passing.  There is
no name check of any kind in the source. -/

structure Bone where
  name : String
deriving DecidableEq, Repr

def addBone (bones : List Bone) (b : Bone) : ℕ × List Bone :=
  (bones.length, bones ++ [b])

/-- Counterexample to claim C7: adding a second bone named "a" does not
fail — it returns the next index (1) and the resulting skeleton holds two
bones with the same name, which contradicts the claim that construction
aborts with DuplicateBoneError rather than producing such a skeleton. -/
theorem c7_duplicate_counterexample :
    (addBone (addBone [] ⟨"a"⟩).2 ⟨"a"⟩).1 = 1 ∧
    ((addBone (addBone [] ⟨"a"⟩).2 ⟨"a"⟩).2.filter (fun b => b.name == "a")).length = 2 := by
  decide

/-- Claim C7 as amended: addBone returns a bone index equal to the number
of bones added before it, the list grows by appending, every earlier bone
keeps its position, and the new bone sits at the returned index and stays
there under any sequence of later additions; however duplicate names are
not detected — a bone whose name already exists is appended and indexed
like any other (no DuplicateBoneError exists in the code). -/
theorem c7_addBone_index_stable (bones : List Bone) (b : Bone) :
    (addBone bones b).1 = bones.length ∧
    (addBone bones b).2 = bones ++ [b] ∧
    (addBone bones b).2.length = bones.length + 1 ∧
    (∀ i, i < bones.length → (addBone bones b).2[i]? = bones[i]?) ∧
    (addBone bones b).2[bones.length]? = some b ∧
    (∀ more : List Bone, ((addBone bones b).2 ++ more)[bones.length]? = some b) := by
  refine ⟨rfl, rfl, by simp [addBone], fun i hi => ?_, ?_, fun more => ?_⟩
  · simp [addBone, List.getElem?_append_left hi]
  · simp [addBone]
  · have hlt : bones.length < ((addBone bones b).2).length := by simp [addBone]
    rw [List.getElem?_append_left hlt]
    simp [addBone]

/-- Witness for c7_addBone_index_stable: appending "y" to the one-bone
skeleton ["x"] keeps bone 0 in place and puts "y" at index 1. -/
theorem c7_addBone_index_stable_witness :
    (addBone [⟨"x"⟩] ⟨"y"⟩).1 = 1 ∧
    (addBone [⟨"x"⟩] ⟨"y"⟩).2[0]? = ([⟨"x"⟩] : List Bone)[0]? ∧
    (addBone [⟨"x"⟩] ⟨"y"⟩).2[1]? = some ⟨"y"⟩ :=
  ⟨(c7_addBone_index_stable [⟨"x"⟩] ⟨"y"⟩).1,
   (c7_addBone_index_stable [⟨"x"⟩] ⟨"y"⟩).2.2.2.1 0 (by decide),
   (c7_addBone_index_stable [⟨"x"⟩] ⟨"y"⟩).2.2.2.2.1⟩

/-! ### Scene composer (Part.build, lines 51-81, and model assembly, lines 766-785)

Part.build creates a Group whose name is set to the part's name (line 72)
and adds to it a mesh whose name is also set to the part's name (line 71),
followed by the recursively built child groups.  The exported model is the
built part tree with the skeleton's root bone attached to the root group
(model.add(body.hipsBone), line 777), so the final node list also contains
one node per bone.  Only names and tree shape matter to claim C9, so parts
are modelled by their name tree and the output by a named node tree with
group, mesh and bone nodes. -/

inductive PartNode where
  | mk : String → List PartNode → PartNode

def PartNode.name : PartNode → String
  | .mk n _ => n

inductive SceneNode where
  | group : String → List SceneNode → SceneNode
  | mesh : String → SceneNode
  | bone : String → List SceneNode → SceneNode

mutual

def buildPart : PartNode → SceneNode
  | .mk n cs => .group n (.mesh n :: buildParts cs)

def buildParts : List PartNode → List SceneNode
  | [] => []
  | p :: ps => buildPart p :: buildParts ps

end

mutual

def nodeNames : SceneNode → List String
  | .group n cs => n :: nodeNamesList cs
  | .mesh n => [n]
  | .bone n cs => n :: nodeNamesList cs

def nodeNamesList : List SceneNode → List String
  | [] => []
  | s :: ss => nodeNames s ++ nodeNamesList ss

end

mutual

def partNames : PartNode → List String
  | .mk n cs => n :: partNamesList cs

def partNamesList : List PartNode → List String
  | [] => []
  | p :: ps => partNames p ++ partNamesList ps

end

mutual

theorem count_nodeNames_buildPart (p : PartNode) (n : String) :
    (nodeNames (buildPart p)).count n = 2 * (partNames p).count n := by
  match p with
  | .mk nm cs =>
    show (nodeNames (.group nm (.mesh nm :: buildParts cs))).count n
      = 2 * (partNames (.mk nm cs)).count n
    rw [nodeNames, nodeNamesList, nodeNames, partNames]
    rw [List.count_cons, List.count_append, List.count_cons, List.count_nil,
      List.count_cons, count_nodeNames_buildParts cs n]
    by_cases h : nm = n
    · simp only [h]
      simp
      ring
    · simp [h]

theorem count_nodeNames_buildParts (ps : List PartNode) (n : String) :
    (nodeNamesList (buildParts ps)).count n = 2 * (partNamesList ps).count n := by
  match ps with
  | [] => rfl
  | p :: rest =>
    rw [buildParts, nodeNamesList, partNamesList, List.count_append,
      List.count_append, count_nodeNames_buildPart p n,
      count_nodeNames_buildParts rest n]
    ring

end

/-- The concrete part tree composed at lines 737-764: body with children
head, leftArm (child leftHand), rightArm (child rightHand), leftLeg
(child leftFoot), rightLeg (child rightFoot), in add order. -/
def bodyPart : PartNode :=
  .mk "body"
    [.mk "head" [],
     .mk "leftArm" [.mk "leftHand" []],
     .mk "rightArm" [.mk "rightHand" []],
     .mk "leftLeg" [.mk "leftFoot" []],
     .mk "rightLeg" [.mk "rightFoot" []]]

/-- The concrete bone hierarchy rooted at hipsBone, as assembled by
createBody / createArm / createHand / createLeg / createFoot / createHead
and the add calls at lines 737-762. -/
def skeletonRoot : SceneNode :=
  .bone "hips"
    [.bone "spine"
      [.bone "chest"
        [.bone "upperChest"
          [.bone "neck" [.bone "head" []],
           .bone "leftShoulder"
             [.bone "leftUpperArm"
               [.bone "leftLowerArm" [.bone "leftHand" []]]],
           .bone "rightShoulder"
             [.bone "rightUpperArm"
               [.bone "rightLowerArm" [.bone "rightHand" []]]]]]],
     .bone "leftUpperLeg" [.bone "leftLowerLeg" [.bone "leftFoot" []]],
     .bone "rightUpperLeg" [.bone "rightLowerLeg" [.bone "rightFoot" []]]]

/-- Line 777: model.add(body.hipsBone) appends the skeleton root as a
further child of the built root group, after the mesh and part children. -/
def attachSkeleton (root : SceneNode) (skel : SceneNode) : SceneNode :=
  match root with
  | .group n cs => .group n (cs ++ [skel])
  | other => other

/-- The model handed to the exporter: the built part tree with the
skeleton attached at the root (lines 771 and 777). -/
def composedScene : SceneNode :=
  attachSkeleton (buildPart bodyPart) skeletonRoot

/-- Counterexample to claim C9: building the head part alone already
produces two nodes named "head" (the group and the mesh it wraps, lines
71-72), and in the full exported model — part tree plus the skeleton
attached at line 777, whose head bone also carries the name — "head"
appears three times in the node list.  The part name is not unique among
the nodes of the composed scene. -/
theorem c9_duplicate_name_counterexample :
    (nodeNames (buildPart (.mk "head" []))).count "head" = 2 ∧
    (nodeNames composedScene).count "head" = 3 := by
  decide

/-- Claim C9 as amended: each Part's name becomes the name of both its
output group node and its mesh node, so in the built part tree every part
name occurs exactly 2 * (its multiplicity in the part tree) times; in the
full composed scene (with the skeleton attached at the root, line 777)
every part name therefore occurs at least twice, the five part names that
coincide with bone names (head, leftHand, rightHand, leftFoot, rightFoot)
occur exactly three times, and the remaining five part names (body,
leftArm, rightArm, leftLeg, rightLeg) occur exactly twice.  The part
names themselves are pairwise distinct, but per-name uniqueness over the
final node list fails for every part. -/
theorem c9_part_name_nodes :
    (∀ (p : PartNode) (n : String),
      (nodeNames (buildPart p)).count n = 2 * (partNames p).count n) ∧
    (partNames bodyPart).Nodup ∧
    (∀ n ∈ partNames bodyPart, 2 ≤ (nodeNames composedScene).count n) ∧
    (∀ n ∈ (["head", "leftHand", "rightHand", "leftFoot", "rightFoot"] : List String),
      (nodeNames composedScene).count n = 3) ∧
    (∀ n ∈ (["body", "leftArm", "rightArm", "leftLeg", "rightLeg"] : List String),
      (nodeNames composedScene).count n = 2) := by
  refine ⟨count_nodeNames_buildPart, by decide, by decide, by decide, by decide⟩

/-- Witness for c9_part_name_nodes: "leftHand" is a part name of the
composed scene and labels three nodes (group, mesh and bone), while
"body" labels two (group and mesh). -/
theorem c9_part_name_nodes_witness :
    (nodeNames (buildPart bodyPart)).count "leftHand"
      = 2 * (partNames bodyPart).count "leftHand" ∧
    2 ≤ (nodeNames composedScene).count "leftHand" ∧
    (nodeNames composedScene).count "leftHand" = 3 ∧
    (nodeNames composedScene).count "body" = 2 :=
  ⟨c9_part_name_nodes.1 bodyPart "leftHand",
   c9_part_name_nodes.2.2.1 "leftHand" (by decide),
   c9_part_name_nodes.2.2.2.1 "leftHand" (by decide),
   c9_part_name_nodes.2.2.2.2 "body" (by decide)⟩

end KgtkrIcon
